import Mathlib

/-!
Verification of the kinesis trigger handlers of the elastic-serverless-forwarder
(`src/handlers/aws/kinesis_trigger.py`), shallowly embedded in Lean 4.

The embedding models:
  * `_handle_kinesis_continuation` — publishes one continuation message for an
    interrupted kinesis record to the internal continuing SQS queue;
  * `_handle_kinesis_record` — iterates the records of a kinesis trigger batch,
    decodes each payload via the storage layer (`get_by_lines`), and yields
    normalized documents together with offset/record-index bookkeeping.

External collaborators (the storage decoder obtained from `StorageFactory`,
the ARN parsing utilities from `.utils`, the SQS client) are modelled as
function parameters, so every theorem quantifies over them.  Byte strings are
`List Nat`; Python's `bytes.decode("utf-8")` is modelled by an explicit strict
UTF-8 decoder.  Python dicts are modelled by an ordered association-list JSON
value; dict item assignment preserves the position of an existing key and
appends a fresh key, matching CPython semantics.
-/

/-- A byte string: each entry is one byte (0..255). -/
abbrev Bytes := List Nat

/-- Strict UTF-8 decoding of a byte list into the list of code points, or
`none` on the first malformed sequence — the model of Python's
`bytes.decode("utf-8")` raising `UnicodeDecodeError`.  Overlong encodings,
surrogate code points and out-of-range values are rejected, as in CPython. -/
def utf8DecodeCodepoints : Bytes → Option (List Nat)
  | [] => some []
  | b0 :: rest =>
    if b0 < 0x80 then
      (utf8DecodeCodepoints rest).map (fun cs => b0 :: cs)
    else if 0xC2 ≤ b0 ∧ b0 ≤ 0xDF then
      match rest with
      | b1 :: rest1 =>
        if 0x80 ≤ b1 ∧ b1 ≤ 0xBF then
          (utf8DecodeCodepoints rest1).map (fun cs => ((b0 - 0xC0) * 0x40 + (b1 - 0x80)) :: cs)
        else none
      | [] => none
    else if 0xE0 ≤ b0 ∧ b0 ≤ 0xEF then
      match rest with
      | b1 :: b2 :: rest2 =>
        if (if b0 = 0xE0 then 0xA0 else 0x80) ≤ b1 ∧ b1 ≤ (if b0 = 0xED then 0x9F else 0xBF)
            ∧ 0x80 ≤ b2 ∧ b2 ≤ 0xBF then
          (utf8DecodeCodepoints rest2).map
            (fun cs => ((b0 - 0xE0) * 0x1000 + (b1 - 0x80) * 0x40 + (b2 - 0x80)) :: cs)
        else none
      | _ => none
    else if 0xF0 ≤ b0 ∧ b0 ≤ 0xF4 then
      match rest with
      | b1 :: b2 :: b3 :: rest3 =>
        if (if b0 = 0xF0 then 0x90 else 0x80) ≤ b1 ∧ b1 ≤ (if b0 = 0xF4 then 0x8F else 0xBF)
            ∧ 0x80 ≤ b2 ∧ b2 ≤ 0xBF ∧ 0x80 ≤ b3 ∧ b3 ≤ 0xBF then
          (utf8DecodeCodepoints rest3).map
            (fun cs =>
              ((b0 - 0xF0) * 0x40000 + (b1 - 0x80) * 0x1000 + (b2 - 0x80) * 0x40 + (b3 - 0x80)) :: cs)
        else none
      | _ => none
    else none

/-- Decode a byte list as strict UTF-8 text, `none` on malformed input. -/
def utf8Decode (bs : Bytes) : Option String :=
  (utf8DecodeCodepoints bs).map (fun cs => String.mk (cs.map Char.ofNat))

/-- A JSON-like value modelling the Python dicts the handler manipulates.
Objects are ordered association lists, mirroring CPython insertion order. -/
inductive Json where
  | str : String → Json
  | num : Nat → Json
  | obj : List (String × Json) → Json

/-- Dict item assignment on the ordered field list: an existing key keeps its
position and gets the new value; a fresh key is appended (CPython semantics). -/
def setKey : List (String × Json) → String → Json → List (String × Json)
  | [], k, v => [(k, v)]
  | (k0, v0) :: rest, k, v =>
    if k0 = k then (k0, v) :: rest else (k0, v0) :: setKey rest k v

/-- Dict item lookup on the ordered field list. -/
def getKey : List (String × Json) → String → Option Json
  | [], _ => none
  | (k0, v0) :: rest, k => if k0 = k then some v0 else getKey rest k

/-- `setPath p j v` models the Python statement `j[p₀][p₁]…[pₙ] = v`:
the intermediate keys are looked up, the final key is assigned.  (On the
template the handler actually uses, every intermediate key is present.) -/
def setPath : List String → Json → Json → Json
  | [], _, v => v
  | [k], Json.obj kvs, v => Json.obj (setKey kvs k v)
  | k :: ks, Json.obj kvs, v =>
    match getKey kvs k with
    | some child => Json.obj (setKey kvs k (setPath ks child v))
    | none => Json.obj kvs
  | _, j, _ => j

/-- `getPath j p` models the Python expression `j[p₀][p₁]…[pₙ]`. -/
def getPath : Json → List String → Option Json
  | j, [] => some j
  | Json.obj kvs, k :: ks =>
    match getKey kvs k with
    | some child => getPath child ks
    | none => none
  | _, _ :: _ => none

/-- One element yielded by the storage decoder `get_by_lines`:
`(log_event, starting_offset, ending_offset, event_expanded_offset)`. -/
structure DecodedUnit where
  content : Bytes
  startOffset : Nat
  endOffset : Nat
  expandedOffset : Option Nat
  deriving DecidableEq, Repr

/-- The parts of one entry of `event["Records"]` that the handlers read:
`kinesis_record["eventSourceARN"]`, `…["kinesis"]["sequenceNumber"]` and
`…["kinesis"]["data"]`. -/
structure KinesisRecord where
  eventSourceARN : String
  sequenceNumber : String
  data : Bytes
  deriving DecidableEq, Repr

/-- Modelled from the spec: the shared default-document template
`_default_event` is imported from `.event`, a module not present under src/.
Per the spec, a canonical document carries a timestamp, a message body, the
source-record offset and source identity (stream type, name, region, account
id, sequence number); this template supplies those fields with neutral
defaults, matching the paths the handler assigns into. -/
def _default_event : Json :=
  Json.obj
    [("@timestamp", Json.str ""),
     ("fields",
       Json.obj
         [("message", Json.str ""),
          ("log", Json.obj [("offset", Json.num 0), ("file", Json.obj [("path", Json.str "")])]),
          ("aws", Json.obj []),
          ("cloud",
            Json.obj
              [("provider", Json.str "aws"), ("region", Json.str ""),
               ("account", Json.obj [])])]),
     ("meta", Json.obj [])]

/-- The per-unit document construction of `_handle_kinesis_record` (lines
109–127): a fresh copy of the template is taken and its fields are assigned
in source order.  `template` is the value copied by `deepcopy(_default_event)`;
`timestamp` stands for the impure `datetime.datetime.utcnow().strftime(...)`. -/
def buildEsEventFrom (template : Json) (timestamp accountId : String)
    (eventSourceARN streamType streamName awsRegion sequenceNumber : String)
    (message : String) (startingOffset : Nat) : Json :=
  let e1 := setPath ["@timestamp"] template (Json.str timestamp)
  let e2 := setPath ["fields", "message"] e1 (Json.str message)
  let e3 := setPath ["fields", "log", "offset"] e2 (Json.num startingOffset)
  let e4 := setPath ["fields", "log", "file", "path"] e3 (Json.str eventSourceARN)
  let e5 := setPath ["fields", "aws"] e4
    (Json.obj
      [("kinesis",
        Json.obj
          [("type", Json.str streamType), ("name", Json.str streamName),
           ("sequence_number", Json.str sequenceNumber)])])
  let e6 := setPath ["fields", "cloud", "region"] e5 (Json.str awsRegion)
  setPath ["fields", "cloud", "account"] e6 (Json.obj [("id", Json.str accountId)])

/-- The inner `for log_event, … in events` loop of `_handle_kinesis_record`
over one record's decoded units.  Returns the tuples yielded so far plus
`some error` if `log_event.decode("UTF-8")` raises (which ends the generator),
else `none`.  Each yielded tuple is
`(es_event, ending_offset, event_expanded_offset, kinesis_record_n)`. -/
def processUnits (timestamp accountId : String) (rec : KinesisRecord) (recN : Nat)
    (streamType streamName awsRegion : String) :
    List DecodedUnit → List (Json × Nat × Option Nat × Nat) × Option String
  | [] => ([], none)
  | u :: us =>
    match utf8Decode u.content with
    | none => ([], some "UnicodeDecodeError")
    | some message =>
      let doc := buildEsEventFrom _default_event timestamp accountId rec.eventSourceARN
        streamType streamName awsRegion rec.sequenceNumber message u.startOffset
      let r := processUnits timestamp accountId rec recN streamType streamName awsRegion us
      ((doc, u.endOffset, u.expandedOffset, recN) :: r.1, r.2)

/-- The `for kinesis_record_n, kinesis_record in enumerate(event["Records"])`
loop, starting at record index `n`.  `getByLines` stands for the storage
decoder built by `StorageFactory.create` for the record's payload and queried
as `storage.get_by_lines(range_start=0)`; a `.error` models a raised decode
exception, which ends the generator — no later record is reached.  `arnParse`
stands for `get_kinesis_stream_name_type_and_region_from_arn`. -/
def handleRecordsFrom (getByLines : Bytes → Nat → Except String (List DecodedUnit))
    (arnParse : String → String × String × String) (accountId timestamp : String) :
    Nat → List KinesisRecord → List (Json × Nat × Option Nat × Nat) × Option String
  | _, [] => ([], none)
  | n, r :: rs =>
    match getByLines r.data 0 with
    | Except.error e => ([], some e)
    | Except.ok us =>
      let p := arnParse r.eventSourceARN
      let res := processUnits timestamp accountId r n p.1 p.2.1 p.2.2 us
      match res.2 with
      | some e => (res.1, some e)
      | none =>
        let rest := handleRecordsFrom getByLines arnParse accountId timestamp (n + 1) rs
        (res.1 ++ rest.1, rest.2)

/-- `_handle_kinesis_record`: iterates the batch's records in order and yields
`(es_event, ending_offset, event_expanded_offset, kinesis_record_n)` tuples.
`accountFromArn` stands for `get_account_id_from_arn`, applied once to
`input_id` as in the source.  The result is the list of yielded tuples plus
`some error` when a decode exception ended the generator early. -/
def _handle_kinesis_record (getByLines : Bytes → Nat → Except String (List DecodedUnit))
    (arnParse : String → String × String × String) (accountFromArn : String → String)
    (timestamp inputId : String) (records : List KinesisRecord) :
    List (Json × Nat × Option Nat × Nat) × Option String :=
  handleRecordsFrom getByLines arnParse (accountFromArn inputId) timestamp 0 records

/-- One SQS message attribute: `{"StringValue": …, "DataType": …}`. -/
structure MessageAttribute where
  stringValue : String
  dataType : String
  deriving DecidableEq, Repr, Inhabited

/-- One message sent with `sqs_client.send_message`. -/
structure SqsMessage where
  queueUrl : String
  messageBody : String
  messageAttributes : List (String × MessageAttribute)
  deriving DecidableEq, Repr, Inhabited

/-- The `message_attributes` dict built by `_handle_kinesis_continuation`
(lines 38–53): five mandatory string attributes, then
`originalLastEndingOffset` exactly when `last_ending_offset is not None`, then
`originalLastEventExpandedOffset` exactly when `last_event_expanded_offset is
not None`, each number serialized with `str(...)`. -/
def continuationMessageAttributes (configYaml streamType streamName sequenceNumber
    eventInputId : String) (lastEndingOffset lastEventExpandedOffset : Option Nat) :
    List (String × MessageAttribute) :=
  [("config", ⟨configYaml, "String"⟩),
   ("originalStreamType", ⟨streamType, "String"⟩),
   ("originalStreamName", ⟨streamName, "String"⟩),
   ("originalSequenceNumber", ⟨sequenceNumber, "String"⟩),
   ("originalEventSourceARN", ⟨eventInputId, "String"⟩)]
  ++ (match lastEndingOffset with
      | some k => [("originalLastEndingOffset", ⟨toString k, "Number"⟩)]
      | none => [])
  ++ (match lastEventExpandedOffset with
      | some k => [("originalLastEventExpandedOffset", ⟨toString k, "Number"⟩)]
      | none => [])

/-- `_handle_kinesis_continuation`: builds the attribute dict, decodes the raw
record payload as UTF-8 for the message body, and calls
`sqs_client.send_message` once.  The result is the list of messages sent to
the channel plus `some error` when `kinesis_data.decode("utf-8")` raises —
the decode happens before the send, so nothing is sent in that case. -/
def _handle_kinesis_continuation (arnParse : String → String × String × String)
    (sqsContinuingQueue : String) (lastEndingOffset lastEventExpandedOffset : Option Nat)
    (kinesisRecord : KinesisRecord) (eventInputId : String) (configYaml : String) :
    List SqsMessage × Option String :=
  let sequenceNumber := kinesisRecord.sequenceNumber
  let p := arnParse eventInputId
  let attrs := continuationMessageAttributes configYaml p.1 p.2.1 sequenceNumber eventInputId
    lastEndingOffset lastEventExpandedOffset
  match utf8Decode kinesisRecord.data with
  | none => ([], some "UnicodeDecodeError")
  | some body => ([⟨sqsContinuingQueue, body, attrs⟩], none)

/-- The document `_handle_kinesis_record` yields for decoded unit `u` of
record `rec`, with `p` the parsed (stream type, stream name, region) of the
record's ARN.  The message body is the unit's content decoded as UTF-8 (the
handler only reaches this point when that decode succeeds). -/
def kinesisDoc (timestamp accountId : String) (rec : KinesisRecord)
    (p : String × String × String) (u : DecodedUnit) : Json :=
  buildEsEventFrom _default_event timestamp accountId rec.eventSourceARN p.1 p.2.1 p.2.2
    rec.sequenceNumber ((utf8Decode u.content).getD "") u.startOffset

/-- The resumption point of the spec: byte offset (exclusive) of the last
emitted decoded unit, and the index of the last emitted sub-event sharing
that byte range, each absent when not applicable. -/
structure OffsetCursor where
  lastEndingOffset : Option Nat
  lastSubEventIndex : Option Nat
  deriving DecidableEq, Repr

/-- Modelled from the spec: the resumed-invocation consumer (the continuing
queue path) is not under src/ — the kinesis trigger handler itself always
starts fresh invocations.  Per the spec, the Decoder is queried with a
cursor-derived rangeStart: 0 for a fresh record, `lastEndingOffset` when this
is the first record of a resumed invocation and a cursor was supplied for it
(a cursor with both offsets absent means resume from the record's start). -/
def rangeStartFor (cursor : Option OffsetCursor) : Nat :=
  match cursor with
  | some c => c.lastEndingOffset.getD 0
  | none => 0

/-- Modelled from the spec: the Decoder interface contract —
`decode(payload, rangeStart)` must honor `rangeStart` as "do not return units
ending at or before this offset".  `fullUnits` is the ordered unit sequence
the decoder yields for the payload from rangeStart 0. -/
def decodeHonoringRangeStart (fullUnits : List DecodedUnit) (rangeStart : Nat) :
    List DecodedUnit :=
  fullUnits.filter (fun u => decide (rangeStart < u.endOffset))

/-- Heap-level rendering of the per-unit loop of `_handle_kinesis_record`
(lines 109–128): Python objects live in a store (a list of values addressed
by position), the shared template `_default_event` sits at address 0, and
`deepcopy(_default_event)` reads the template's current value and allocates a
fresh object holding the mutated copy, which is what the loop yields.
Returns the final store, the addresses of the yielded documents in yield
order, and the error, if any, that ended the loop. -/
def runUnitsHeap (timestamp accountId : String) (rec : KinesisRecord)
    (streamType streamName awsRegion : String) :
    List DecodedUnit → List Json → List Json × List Nat × Option String
  | [], store => (store, [], none)
  | u :: us, store =>
    match utf8Decode u.content with
    | none => (store, [], some "UnicodeDecodeError")
    | some message =>
      let doc := buildEsEventFrom (store.headD (Json.obj [])) timestamp accountId
        rec.eventSourceARN streamType streamName awsRegion rec.sequenceNumber message
        u.startOffset
      let r := runUnitsHeap timestamp accountId rec streamType streamName awsRegion us
        (store ++ [doc])
      (r.1, store.length :: r.2.1, r.2.2)

/-- When the record payload is valid UTF-8, the continuation handler sends
exactly the one message built from the queue, the decoded body and the
attribute dict. -/
theorem handle_continuation_ok (arnParse : String → String × String × String)
    (queue : String) (leo lexp : Option Nat) (rec : KinesisRecord) (eid cfg body : String)
    (h : utf8Decode rec.data = some body) :
    _handle_kinesis_continuation arnParse queue leo lexp rec eid cfg
      = ([⟨queue, body,
            continuationMessageAttributes cfg (arnParse eid).1 (arnParse eid).2.1
              rec.sequenceNumber eid leo lexp⟩], none) := by
  simp only [_handle_kinesis_continuation, h]

/-- When the record payload is not valid UTF-8, the decode raises before the
send: nothing is published. -/
theorem handle_continuation_err (arnParse : String → String × String × String)
    (queue : String) (leo lexp : Option Nat) (rec : KinesisRecord) (eid cfg : String)
    (h : utf8Decode rec.data = none) :
    _handle_kinesis_continuation arnParse queue leo lexp rec eid cfg
      = ([], some "UnicodeDecodeError") := by
  simp only [_handle_kinesis_continuation, h]

/-- C3: the continuation message carries `originalLastEndingOffset` iff
`last_ending_offset` is present and `originalLastEventExpandedOffset` iff
`last_event_expanded_offset` is present, each serialized as the canonical
decimal string; a present value 0 is encoded as "0", distinguishable from
absence. -/
theorem continuation_optional_cursor_attributes (cfg st sn seq eid : String)
    (leo lexp : Option Nat) :
    (continuationMessageAttributes cfg st sn seq eid leo lexp).lookup
        "originalLastEndingOffset"
      = leo.map (fun k => (⟨toString k, "Number"⟩ : MessageAttribute)) ∧
    (continuationMessageAttributes cfg st sn seq eid leo lexp).lookup
        "originalLastEventExpandedOffset"
      = lexp.map (fun k => (⟨toString k, "Number"⟩ : MessageAttribute)) ∧
    (continuationMessageAttributes cfg st sn seq eid (some 0) lexp).lookup
        "originalLastEndingOffset" = some ⟨"0", "Number"⟩ ∧
    (continuationMessageAttributes cfg st sn seq eid none lexp).lookup
        "originalLastEndingOffset" = none := by
  cases leo <;> cases lexp <;> exact ⟨rfl, rfl, rfl, rfl⟩

/-- C5: one invocation of the continuation handler publishes exactly one
message to the continuing queue; its attribute keys are exactly config,
originalStreamType, originalStreamName, originalSequenceNumber,
originalEventSourceARN plus the optional cursor offsets, with stream type and
name derived from the source identifier via the ARN parser and the sequence
number taken from the record itself. -/
theorem continuation_publishes_exactly_one (arnParse : String → String × String × String)
    (queue : String) (leo lexp : Option Nat) (rec : KinesisRecord) (eid cfg body : String)
    (h : utf8Decode rec.data = some body) :
    (_handle_kinesis_continuation arnParse queue leo lexp rec eid cfg).1.length = 1 ∧
    (_handle_kinesis_continuation arnParse queue leo lexp rec eid cfg).2 = none ∧
    ∀ m ∈ (_handle_kinesis_continuation arnParse queue leo lexp rec eid cfg).1,
      m.queueUrl = queue ∧
      (m.messageAttributes.map Prod.fst
        = ["config", "originalStreamType", "originalStreamName", "originalSequenceNumber",
           "originalEventSourceARN"]
          ++ (match leo with | some _ => ["originalLastEndingOffset"] | none => [])
          ++ (match lexp with | some _ => ["originalLastEventExpandedOffset"] | none => [])) ∧
      m.messageAttributes.lookup "config" = some ⟨cfg, "String"⟩ ∧
      m.messageAttributes.lookup "originalStreamType" = some ⟨(arnParse eid).1, "String"⟩ ∧
      m.messageAttributes.lookup "originalStreamName" = some ⟨(arnParse eid).2.1, "String"⟩ ∧
      m.messageAttributes.lookup "originalSequenceNumber"
        = some ⟨rec.sequenceNumber, "String"⟩ ∧
      m.messageAttributes.lookup "originalEventSourceARN" = some ⟨eid, "String"⟩ := by
  rw [handle_continuation_ok arnParse queue leo lexp rec eid cfg body h]
  refine ⟨rfl, rfl, ?_⟩
  intro m hm
  simp only [List.mem_singleton] at hm
  subst hm
  refine ⟨rfl, ?_, ?_, ?_, ?_, ?_, ?_⟩ <;> cases leo <;> cases lexp <;> rfl

/-- Witness for C5 at a concrete input. -/
theorem continuation_publishes_exactly_one_witness :
    (_handle_kinesis_continuation (fun _ => ("stream", "name", "region")) "queue" (some 0) none
        ⟨"arn", "seq", [104]⟩ "input-arn" "cfg").1.length = 1 ∧
    (_handle_kinesis_continuation (fun _ => ("stream", "name", "region")) "queue" (some 0) none
        ⟨"arn", "seq", [104]⟩ "input-arn" "cfg").2 = none ∧
    (_handle_kinesis_continuation (fun _ => ("stream", "name", "region")) "queue" (some 0) none
        ⟨"arn", "seq", [104]⟩ "input-arn" "cfg").1.headI.queueUrl = "queue" ∧
    (_handle_kinesis_continuation (fun _ => ("stream", "name", "region")) "queue" (some 0) none
        ⟨"arn", "seq", [104]⟩ "input-arn" "cfg").1.headI.messageAttributes.map Prod.fst
      = ["config", "originalStreamType", "originalStreamName", "originalSequenceNumber",
         "originalEventSourceARN", "originalLastEndingOffset"] ∧
    (_handle_kinesis_continuation (fun _ => ("stream", "name", "region")) "queue" (some 0) none
        ⟨"arn", "seq", [104]⟩ "input-arn" "cfg").1.headI.messageAttributes.lookup "config"
      = some ⟨"cfg", "String"⟩ ∧
    (_handle_kinesis_continuation (fun _ => ("stream", "name", "region")) "queue" (some 0) none
        ⟨"arn", "seq", [104]⟩ "input-arn"
        "cfg").1.headI.messageAttributes.lookup "originalStreamType"
      = some ⟨"stream", "String"⟩ ∧
    (_handle_kinesis_continuation (fun _ => ("stream", "name", "region")) "queue" (some 0) none
        ⟨"arn", "seq", [104]⟩ "input-arn"
        "cfg").1.headI.messageAttributes.lookup "originalSequenceNumber"
      = some ⟨"seq", "String"⟩ ∧
    (_handle_kinesis_continuation (fun _ => ("stream", "name", "region")) "queue" (some 0) none
        ⟨"arn", "seq", [104]⟩ "input-arn"
        "cfg").1.headI.messageAttributes.lookup "originalEventSourceARN"
      = some ⟨"input-arn", "String"⟩ :=
  have h := continuation_publishes_exactly_one (fun _ => ("stream", "name", "region")) "queue"
    (some 0) none ⟨"arn", "seq", [104]⟩ "input-arn" "cfg" "h" rfl
  have hm := h.2.2 ((_handle_kinesis_continuation (fun _ => ("stream", "name", "region")) "queue"
    (some 0) none ⟨"arn", "seq", [104]⟩ "input-arn" "cfg").1.headI) (by decide)
  ⟨h.1, h.2.1, hm.1, hm.2.1, hm.2.2.1, hm.2.2.2.1, hm.2.2.2.2.2.1, hm.2.2.2.2.2.2⟩

/-- C8: the continuation message body is exactly the raw record payload bytes
decoded as UTF-8 text — a function of the undecoded payload only, not of any
decoded units — and the resumption config blob is forwarded unchanged into
the config attribute. -/
theorem continuation_body_and_config (arnParse : String → String × String × String)
    (queue : String) (leo lexp : Option Nat) (rec : KinesisRecord) (eid cfg body : String)
    (h : utf8Decode rec.data = some body) :
    (_handle_kinesis_continuation arnParse queue leo lexp rec eid cfg).1.map
        (fun m => m.messageBody) = [body] ∧
    ∀ m ∈ (_handle_kinesis_continuation arnParse queue leo lexp rec eid cfg).1,
      m.messageAttributes.lookup "config" = some ⟨cfg, "String"⟩ := by
  rw [handle_continuation_ok arnParse queue leo lexp rec eid cfg body h]
  refine ⟨rfl, ?_⟩
  intro m hm
  simp only [List.mem_singleton] at hm
  subst hm
  rfl

/-- Witness for C8 at a concrete input: payload bytes [104, 105] decode to
the body "hi". -/
theorem continuation_body_and_config_witness :
    (_handle_kinesis_continuation (fun _ => ("t", "n", "r")) "q" none none
        ⟨"arn", "seq", [104, 105]⟩ "eid" "blob").1.map (fun m => m.messageBody) = ["hi"] ∧
    (_handle_kinesis_continuation (fun _ => ("t", "n", "r")) "q" none none
        ⟨"arn", "seq", [104, 105]⟩ "eid" "blob").1.headI.messageAttributes.lookup "config"
      = some ⟨"blob", "String"⟩ :=
  have h := continuation_body_and_config (fun _ => ("t", "n", "r")) "q" none none
    ⟨"arn", "seq", [104, 105]⟩ "eid" "blob" "hi" rfl
  ⟨h.1, h.2 ((_handle_kinesis_continuation (fun _ => ("t", "n", "r")) "q" none none
    ⟨"arn", "seq", [104, 105]⟩ "eid" "blob").1.headI) (by decide)⟩

/-- C9: when the interrupted record's payload is not valid UTF-8, the decode
error is raised before the send: no message is sent to the continuation
channel and the error is surfaced. -/
theorem continuation_invalid_utf8_no_publish (arnParse : String → String × String × String)
    (queue : String) (leo lexp : Option Nat) (rec : KinesisRecord) (eid cfg : String)
    (h : utf8Decode rec.data = none) :
    _handle_kinesis_continuation arnParse queue leo lexp rec eid cfg
      = ([], some "UnicodeDecodeError") :=
  handle_continuation_err arnParse queue leo lexp rec eid cfg h

/-- Witness for C9 at a concrete input: the lone byte 0xFF is malformed
UTF-8. -/
theorem continuation_invalid_utf8_no_publish_witness :
    _handle_kinesis_continuation (fun _ => ("t", "n", "r")) "q" (some 1) (some 2)
        ⟨"arn", "seq", [255]⟩ "eid" "cfg" = ([], some "UnicodeDecodeError") :=
  continuation_invalid_utf8_no_publish (fun _ => ("t", "n", "r")) "q" (some 1) (some 2)
    ⟨"arn", "seq", [255]⟩ "eid" "cfg" rfl

/-- C4 counterexample: invoked with `lastSubEventIndex` present (3) and
`lastEndingOffset` absent, the handler does not fail fast: it publishes one
message, with no error, encoding the sub-event index attribute. -/
theorem continuation_no_malformed_cursor_check_counterexample :
    ((_handle_kinesis_continuation (fun _ => ("stream", "name", "region")) "queue" none (some 3)
        ⟨"arn", "seq", [104]⟩ "input-arn" "cfg").1.map
          (fun m => m.messageAttributes.lookup "originalLastEventExpandedOffset"))
      = [some ⟨"3", "Number"⟩] ∧
    (_handle_kinesis_continuation (fun _ => ("stream", "name", "region")) "queue" none (some 3)
        ⟨"arn", "seq", [104]⟩ "input-arn" "cfg").2 = none :=
  ⟨rfl, rfl⟩

/-- C4 amended: the continuation handler performs no malformed-cursor
validation: invoked with `lastSubEventIndex` present and `lastEndingOffset`
absent (and a UTF-8-decodable payload) it constructs and publishes the
continuation message, encoding `originalLastEventExpandedOffset` and omitting
`originalLastEndingOffset`. -/
theorem continuation_malformed_cursor_published (arnParse : String → String × String × String)
    (queue : String) (j : Nat) (rec : KinesisRecord) (eid cfg body : String)
    (h : utf8Decode rec.data = some body) :
    (_handle_kinesis_continuation arnParse queue none (some j) rec eid cfg).1.length = 1 ∧
    (_handle_kinesis_continuation arnParse queue none (some j) rec eid cfg).2 = none ∧
    ∀ m ∈ (_handle_kinesis_continuation arnParse queue none (some j) rec eid cfg).1,
      m.messageAttributes.lookup "originalLastEndingOffset" = none ∧
      m.messageAttributes.lookup "originalLastEventExpandedOffset"
        = some ⟨toString j, "Number"⟩ := by
  rw [handle_continuation_ok arnParse queue none (some j) rec eid cfg body h]
  refine ⟨rfl, rfl, ?_⟩
  intro m hm
  simp only [List.mem_singleton] at hm
  subst hm
  exact ⟨rfl, rfl⟩

/-- Witness for the amended C4 at a concrete input. -/
theorem continuation_malformed_cursor_published_witness :
    (_handle_kinesis_continuation (fun _ => ("t", "n", "r")) "q" none (some 3)
        ⟨"arn", "seq", [104]⟩ "eid" "cfg").1.length = 1 ∧
    (_handle_kinesis_continuation (fun _ => ("t", "n", "r")) "q" none (some 3)
        ⟨"arn", "seq", [104]⟩ "eid" "cfg").2 = none ∧
    (_handle_kinesis_continuation (fun _ => ("t", "n", "r")) "q" none (some 3)
        ⟨"arn", "seq", [104]⟩ "eid"
        "cfg").1.headI.messageAttributes.lookup "originalLastEndingOffset" = none ∧
    (_handle_kinesis_continuation (fun _ => ("t", "n", "r")) "q" none (some 3)
        ⟨"arn", "seq", [104]⟩ "eid"
        "cfg").1.headI.messageAttributes.lookup "originalLastEventExpandedOffset"
      = some ⟨"3", "Number"⟩ :=
  have h := continuation_malformed_cursor_published (fun _ => ("t", "n", "r")) "q" 3
    ⟨"arn", "seq", [104]⟩ "eid" "cfg" "h" rfl
  have hm := h.2.2 ((_handle_kinesis_continuation (fun _ => ("t", "n", "r")) "q" none (some 3)
    ⟨"arn", "seq", [104]⟩ "eid" "cfg").1.headI) (by decide)
  ⟨h.1, h.2.1, hm.1, hm.2⟩

/-- When every unit's content is valid UTF-8, the inner loop yields one tuple
per decoded unit, in the decoder's order, with no error. -/
theorem processUnits_ok (timestamp accountId : String) (rec : KinesisRecord) (recN : Nat)
    (st sn rg : String) (us : List DecodedUnit)
    (h : ∀ u ∈ us, (utf8Decode u.content).isSome) :
    processUnits timestamp accountId rec recN st sn rg us
      = (us.map (fun u => (kinesisDoc timestamp accountId rec (st, sn, rg) u,
          u.endOffset, u.expandedOffset, recN)), none) := by
  induction us with
  | nil => rfl
  | cons u us ih =>
    obtain ⟨m, hm⟩ := Option.isSome_iff_exists.mp (h u (List.mem_cons_self u us))
    have hrest := ih (fun v hv => h v (List.mem_cons_of_mem u hv))
    simp only [processUnits, hm, hrest, List.map_cons, kinesisDoc]
    simp [hm]

/-- When the decoder succeeds on every record of the suffix and every unit's
content is valid UTF-8, the record loop starting at index `n` yields, in
order, the blocks of tuples of the records, each tagged with its index. -/
theorem handleRecordsFrom_ok (getByLines : Bytes → Nat → Except String (List DecodedUnit))
    (arnParse : String → String × String × String) (accountId timestamp : String)
    (units : KinesisRecord → List DecodedUnit) :
    ∀ (rs : List KinesisRecord) (n : Nat),
      (∀ r ∈ rs, getByLines r.data 0 = Except.ok (units r)
          ∧ ∀ u ∈ units r, (utf8Decode u.content).isSome) →
      handleRecordsFrom getByLines arnParse accountId timestamp n rs
        = ((List.enumFrom n rs).flatMap (fun q =>
            (units q.2).map (fun u =>
              (kinesisDoc timestamp accountId q.2 (arnParse q.2.eventSourceARN) u,
               u.endOffset, u.expandedOffset, q.1))), none) := by
  intro rs
  induction rs with
  | nil => intro n _; rfl
  | cons r rs ih =>
    intro n h
    have h1 := h r (List.mem_cons_self r rs)
    have h2 := ih (n + 1) (fun r0 hr0 => h r0 (List.mem_cons_of_mem r hr0))
    simp only [handleRecordsFrom, h1.1]
    rw [processUnits_ok timestamp accountId r n _ _ _ (units r) h1.2]
    simp only [h2, List.enumFrom_cons, List.flatMap_cons]

/-- C6: the batch handler processes records by index in batch order without
skipping or reordering: its output is exactly the concatenation, in enum
order, of each record's block of documents, each block in the decoder's unit
order and tagged with the record's 0-based index. -/
theorem kinesis_records_in_order (getByLines : Bytes → Nat → Except String (List DecodedUnit))
    (arnParse : String → String × String × String) (accountFromArn : String → String)
    (timestamp inputId : String) (records : List KinesisRecord)
    (units : KinesisRecord → List DecodedUnit)
    (h : ∀ r ∈ records, getByLines r.data 0 = Except.ok (units r)
        ∧ ∀ u ∈ units r, (utf8Decode u.content).isSome) :
    _handle_kinesis_record getByLines arnParse accountFromArn timestamp inputId records
      = ((records.enum).flatMap (fun q =>
          (units q.2).map (fun u =>
            (kinesisDoc timestamp (accountFromArn inputId) q.2 (arnParse q.2.eventSourceARN) u,
             u.endOffset, u.expandedOffset, q.1))), none) :=
  handleRecordsFrom_ok getByLines arnParse (accountFromArn inputId) timestamp units records 0 h

/-- Witness for C6: a batch of two records, each decoding into units, yields
the two blocks in batch order. -/
theorem kinesis_records_in_order_witness :
    _handle_kinesis_record
        (fun _ _ => Except.ok [⟨[104], 0, 1, none⟩, ⟨[105], 1, 2, some 0⟩])
        (fun _ => ("t", "n", "r")) (fun _ => "acct") "ts" "in"
        [⟨"arn1", "s1", [1]⟩, ⟨"arn2", "s2", [2]⟩]
      = (([(0, ⟨"arn1", "s1", [1]⟩), (1, ⟨"arn2", "s2", [2]⟩)] :
            List (Nat × KinesisRecord)).flatMap (fun q =>
          ([⟨[104], 0, 1, none⟩, ⟨[105], 1, 2, some 0⟩] : List DecodedUnit).map (fun u =>
            (kinesisDoc "ts" "acct" q.2 ("t", "n", "r") u,
             u.endOffset, u.expandedOffset, q.1))), none) :=
  kinesis_records_in_order (fun _ _ => Except.ok [⟨[104], 0, 1, none⟩, ⟨[105], 1, 2, some 0⟩])
    (fun _ => ("t", "n", "r")) (fun _ => "acct") "ts" "in"
    [⟨"arn1", "s1", [1]⟩, ⟨"arn2", "s2", [2]⟩]
    (fun _ => [⟨[104], 0, 1, none⟩, ⟨[105], 1, 2, some 0⟩])
    (by
      intro r hr
      refine ⟨rfl, ?_⟩
      show ∀ u ∈ ([⟨[104], 0, 1, none⟩, ⟨[105], 1, 2, some 0⟩] : List DecodedUnit),
        (utf8Decode u.content).isSome
      decide)

/-- The log offset field of the yielded document holds the unit's starting
offset. -/
theorem kinesisDoc_log_offset (ts aid : String) (rec : KinesisRecord)
    (p : String × String × String) (u : DecodedUnit) :
    getPath (kinesisDoc ts aid rec p u) ["fields", "log", "offset"]
      = some (Json.num u.startOffset) := rfl

/-- C10: each yielded tuple carries, alongside the document, the unit's
ending offset, its expanded sub-event offset and the 0-based index of the
originating record, while the document's log offset field records the unit's
starting offset. -/
theorem kinesis_yield_tuple_offsets (getByLines : Bytes → Nat → Except String (List DecodedUnit))
    (arnParse : String → String × String × String) (accountFromArn : String → String)
    (timestamp inputId : String) (records : List KinesisRecord)
    (units : KinesisRecord → List DecodedUnit)
    (h : ∀ r ∈ records, getByLines r.data 0 = Except.ok (units r)
        ∧ ∀ u ∈ units r, (utf8Decode u.content).isSome) :
    (_handle_kinesis_record getByLines arnParse accountFromArn timestamp inputId records).1.map
        (fun t => t.2)
      = (records.enum).flatMap (fun q =>
          (units q.2).map (fun u => (u.endOffset, u.expandedOffset, q.1))) ∧
    (_handle_kinesis_record getByLines arnParse accountFromArn timestamp inputId records).1.map
        (fun t => getPath t.1 ["fields", "log", "offset"])
      = (records.enum).flatMap (fun q =>
          (units q.2).map (fun u => some (Json.num u.startOffset))) := by
  have hc := handleRecordsFrom_ok getByLines arnParse (accountFromArn inputId) timestamp units
    records 0 h
  unfold _handle_kinesis_record
  rw [hc]
  constructor
  · simp [List.map_flatMap, List.map_map, Function.comp_def, List.enum]
  · simp [List.map_flatMap, List.map_map, Function.comp_def, List.enum, kinesisDoc_log_offset]

/-- Witness for C10: one record with one unit (start 3, end 9, expanded
sub-event 2). -/
theorem kinesis_yield_tuple_offsets_witness :
    (_handle_kinesis_record (fun _ _ => Except.ok [⟨[104], 3, 9, some 2⟩])
        (fun _ => ("t", "n", "r")) (fun _ => "acct") "ts" "in"
        [⟨"arn1", "s1", [1]⟩]).1.map (fun t => t.2) = [(9, some 2, 0)] ∧
    (_handle_kinesis_record (fun _ _ => Except.ok [⟨[104], 3, 9, some 2⟩])
        (fun _ => ("t", "n", "r")) (fun _ => "acct") "ts" "in"
        [⟨"arn1", "s1", [1]⟩]).1.map (fun t => getPath t.1 ["fields", "log", "offset"])
      = [some (Json.num 3)] :=
  kinesis_yield_tuple_offsets (fun _ _ => Except.ok [⟨[104], 3, 9, some 2⟩])
    (fun _ => ("t", "n", "r")) (fun _ => "acct") "ts" "in" [⟨"arn1", "s1", [1]⟩]
    (fun _ => [⟨[104], 3, 9, some 2⟩])
    (by
      intro r hr
      refine ⟨rfl, ?_⟩
      show ∀ u ∈ ([⟨[104], 3, 9, some 2⟩] : List DecodedUnit), (utf8Decode u.content).isSome
      decide)

/-- C2 counterexample: with a decoder failing on record 0's payload and
succeeding on record 1's, the batch handler yields nothing at all — in
particular no document of record 1, although record 1 alone yields one — and
surfaces the error; a decode failure on record i does block records i+1..n-1. -/
theorem kinesis_decode_error_blocks_rest_counterexample :
    (_handle_kinesis_record
        (fun p _ => if p = [0] then Except.error "decode error"
          else Except.ok [⟨[104], 0, 1, none⟩])
        (fun _ => ("t", "n", "r")) (fun _ => "acct") "ts" "in"
        [⟨"arn0", "s0", [0]⟩, ⟨"arn1", "s1", [1]⟩]).1 = [] ∧
    (_handle_kinesis_record
        (fun p _ => if p = [0] then Except.error "decode error"
          else Except.ok [⟨[104], 0, 1, none⟩])
        (fun _ => ("t", "n", "r")) (fun _ => "acct") "ts" "in"
        [⟨"arn0", "s0", [0]⟩, ⟨"arn1", "s1", [1]⟩]).2 = some "decode error" ∧
    (_handle_kinesis_record
        (fun p _ => if p = [0] then Except.error "decode error"
          else Except.ok [⟨[104], 0, 1, none⟩])
        (fun _ => ("t", "n", "r")) (fun _ => "acct") "ts" "in"
        [⟨"arn1", "s1", [1]⟩]).1.length = 1 :=
  ⟨rfl, rfl, rfl⟩

/-- A decode failure at the first record of the remaining suffix ends the
loop: the preceding records' blocks are yielded and the error is surfaced;
nothing after the failing record is processed. -/
theorem handleRecordsFrom_append_error
    (getByLines : Bytes → Nat → Except String (List DecodedUnit))
    (arnParse : String → String × String × String) (accountId timestamp : String)
    (units : KinesisRecord → List DecodedUnit) (bad : KinesisRecord)
    (tail : List KinesisRecord) (e : String)
    (hbad : getByLines bad.data 0 = Except.error e) :
    ∀ (good : List KinesisRecord) (n : Nat),
      (∀ r ∈ good, getByLines r.data 0 = Except.ok (units r)
          ∧ ∀ u ∈ units r, (utf8Decode u.content).isSome) →
      handleRecordsFrom getByLines arnParse accountId timestamp n (good ++ bad :: tail)
        = ((List.enumFrom n good).flatMap (fun q =>
            (units q.2).map (fun u =>
              (kinesisDoc timestamp accountId q.2 (arnParse q.2.eventSourceARN) u,
               u.endOffset, u.expandedOffset, q.1))), some e) := by
  intro good
  induction good with
  | nil =>
    intro n _
    simp only [List.nil_append, handleRecordsFrom, hbad]
    rfl
  | cons r rs ih =>
    intro n h
    have h1 := h r (List.mem_cons_self r rs)
    have h2 := ih (n + 1) (fun r0 hr0 => h r0 (List.mem_cons_of_mem r hr0))
    simp only [List.cons_append, handleRecordsFrom, h1.1]
    rw [processUnits_ok timestamp accountId r n _ _ _ (units r) h1.2]
    simp only [List.append_eq, h2, List.enumFrom_cons, List.flatMap_cons]

/-- C2 amended: a decode failure on record i stops the batch handler: the
documents of records 0..i-1 are yielded and the error is surfaced, but
records i+1..n-1 yield no documents in this invocation (the raised exception
ends the generator). -/
theorem kinesis_decode_error_stops_batch
    (getByLines : Bytes → Nat → Except String (List DecodedUnit))
    (arnParse : String → String × String × String) (accountFromArn : String → String)
    (timestamp inputId : String) (units : KinesisRecord → List DecodedUnit)
    (good : List KinesisRecord) (bad : KinesisRecord) (tail : List KinesisRecord) (e : String)
    (hgood : ∀ r ∈ good, getByLines r.data 0 = Except.ok (units r)
        ∧ ∀ u ∈ units r, (utf8Decode u.content).isSome)
    (hbad : getByLines bad.data 0 = Except.error e) :
    _handle_kinesis_record getByLines arnParse accountFromArn timestamp inputId
        (good ++ bad :: tail)
      = ((good.enum).flatMap (fun q =>
          (units q.2).map (fun u =>
            (kinesisDoc timestamp (accountFromArn inputId) q.2 (arnParse q.2.eventSourceARN) u,
             u.endOffset, u.expandedOffset, q.1))), some e) :=
  handleRecordsFrom_append_error getByLines arnParse (accountFromArn inputId) timestamp units
    bad tail e hbad good 0 hgood

/-- Witness for the amended C2: one good record, then a failing one, then a
trailing one. -/
theorem kinesis_decode_error_stops_batch_witness :
    _handle_kinesis_record
        (fun p _ => if p = [0] then Except.error "boom" else Except.ok [⟨[104], 0, 1, none⟩])
        (fun _ => ("t", "n", "r")) (fun _ => "acct") "ts" "in"
        ([⟨"arn1", "s1", [1]⟩] ++ ⟨"arn0", "s0", [0]⟩ :: [⟨"arn2", "s2", [2]⟩])
      = ((([⟨"arn1", "s1", [1]⟩] : List KinesisRecord).enum).flatMap (fun q =>
          ([⟨[104], 0, 1, none⟩] : List DecodedUnit).map (fun u =>
            (kinesisDoc "ts" "acct" q.2 ("t", "n", "r") u,
             u.endOffset, u.expandedOffset, q.1))), some "boom") :=
  kinesis_decode_error_stops_batch
    (fun p _ => if p = [0] then Except.error "boom" else Except.ok [⟨[104], 0, 1, none⟩])
    (fun _ => ("t", "n", "r")) (fun _ => "acct") "ts" "in"
    (fun _ => [⟨[104], 0, 1, none⟩])
    [⟨"arn1", "s1", [1]⟩] ⟨"arn0", "s0", [0]⟩ [⟨"arn2", "s2", [2]⟩] "boom"
    (by
      intro r hr
      simp only [List.mem_singleton] at hr
      subst hr
      refine ⟨rfl, ?_⟩
      show ∀ u ∈ ([⟨[104], 0, 1, none⟩] : List DecodedUnit), (utf8Decode u.content).isSome
      decide)
    rfl

/-- C1: resuming with a supplied cursor queries the Decoder with rangeStart
equal to the cursor's lastEndingOffset (0 is used only for a fresh record,
matching the in-src fresh call `get_by_lines(range_start=0)`); under the
Decoder's rangeStart contract no re-emitted unit has endOffset below the
cursor's lastEndingOffset, nor equal endOffset with a sub-event index at or
below the cursor's lastSubEventIndex. -/
theorem resumed_range_start (fullUnits : List DecodedUnit) (c : OffsetCursor) (k j : Nat)
    (hk : c.lastEndingOffset = some k) (_hj : c.lastSubEventIndex = some j) :
    rangeStartFor (some c) = k ∧ rangeStartFor none = 0 ∧
    ∀ u ∈ decodeHonoringRangeStart fullUnits (rangeStartFor (some c)),
      ¬ u.endOffset < k ∧ ¬ (u.endOffset = k ∧ u.expandedOffset.getD 0 ≤ j) := by
  have h0 : rangeStartFor (some c) = k := by simp [rangeStartFor, hk]
  refine ⟨h0, rfl, ?_⟩
  intro u hu
  rw [h0] at hu
  have hlt : k < u.endOffset := by
    have := List.mem_filter.mp hu
    simpa using this.2
  exact ⟨by omega, by rintro ⟨h1, _⟩; omega⟩

/-- Witness for C1: cursor (lastEndingOffset 2, lastSubEventIndex 1), decoder
output containing a unit past the cursor. -/
theorem resumed_range_start_witness :
    rangeStartFor (some ⟨some 2, some 1⟩) = 2 ∧ rangeStartFor none = 0 ∧
    (¬ (DecodedUnit.mk [] 2 3 (some 0)).endOffset < 2 ∧
      ¬ ((DecodedUnit.mk [] 2 3 (some 0)).endOffset = 2 ∧
          (DecodedUnit.mk [] 2 3 (some 0)).expandedOffset.getD 0 ≤ 1)) :=
  have h := resumed_range_start [⟨[104], 0, 1, none⟩, ⟨[], 2, 3, some 0⟩] ⟨some 2, some 1⟩ 2 1
    rfl rfl
  ⟨h.1, h.2.1, h.2.2 ⟨[], 2, 3, some 0⟩ (by decide)⟩

/-- Running the heap-level unit loop appends every allocated document to the
store and returns their addresses in allocation order. -/
theorem runUnitsHeap_spec (ts aid : String) (rec : KinesisRecord) (st sn rg : String) :
    ∀ (us : List DecodedUnit) (store : List Json),
      ∃ docs : List Json,
        (runUnitsHeap ts aid rec st sn rg us store).1 = store ++ docs ∧
        (runUnitsHeap ts aid rec st sn rg us store).2.1
          = List.range' store.length docs.length := by
  intro us
  induction us with
  | nil =>
    intro store
    exact ⟨[], by simp [runUnitsHeap], by simp [runUnitsHeap]⟩
  | cons u us ih =>
    intro store
    cases hd : utf8Decode u.content with
    | none => exact ⟨[], by simp [runUnitsHeap, hd], by simp [runUnitsHeap, hd]⟩
    | some m =>
      obtain ⟨docs, h1, h2⟩ := ih (store ++ [buildEsEventFrom (store.headD (Json.obj [])) ts aid
        rec.eventSourceARN st sn rg rec.sequenceNumber m u.startOffset])
      refine ⟨buildEsEventFrom (store.headD (Json.obj [])) ts aid rec.eventSourceARN st sn rg
        rec.sequenceNumber m u.startOffset :: docs, ?_, ?_⟩
      · simp only [runUnitsHeap, hd]
        rw [h1, List.append_assoc]
        rfl
      · simp only [runUnitsHeap, hd]
        rw [h2]
        simp [List.range'_succ]

/-- C7: each yielded document is built from a fresh deep copy of the shared
default-document template: after the per-unit loop the template's address
still holds `_default_event` unchanged, the yielded documents live at
pairwise distinct addresses all different from the template's, and
overwriting the object at one yielded document's address alters neither any
other yielded document nor the shared template. -/
theorem kinesis_fresh_copy_no_leakage (ts aid : String) (rec : KinesisRecord)
    (st sn rg : String) (us : List DecodedUnit) (a b : Nat) (v : Json)
    (ha : a ∈ (runUnitsHeap ts aid rec st sn rg us [_default_event]).2.1)
    (_hb : b ∈ (runUnitsHeap ts aid rec st sn rg us [_default_event]).2.1)
    (hab : a ≠ b) :
    ((runUnitsHeap ts aid rec st sn rg us [_default_event]).1)[0]? = some _default_event ∧
    ((runUnitsHeap ts aid rec st sn rg us [_default_event]).2.1).Nodup ∧
    0 ∉ (runUnitsHeap ts aid rec st sn rg us [_default_event]).2.1 ∧
    (((runUnitsHeap ts aid rec st sn rg us [_default_event]).1).set a v)[b]?
      = ((runUnitsHeap ts aid rec st sn rg us [_default_event]).1)[b]? ∧
    (((runUnitsHeap ts aid rec st sn rg us [_default_event]).1).set a v)[0]?
      = some _default_event := by
  obtain ⟨docs, h1, h2⟩ := runUnitsHeap_spec ts aid rec st sn rg us [_default_event]
  have hs0 : ((runUnitsHeap ts aid rec st sn rg us [_default_event]).1)[0]?
      = some _default_event := by
    rw [h1]
    simp
  have ha1 : 1 ≤ a := by
    rw [h2] at ha
    have h3 := (List.mem_range'_1.mp ha).1
    simpa using h3
  refine ⟨hs0, ?_, ?_, List.getElem?_set_ne hab, ?_⟩
  · rw [h2]
    exact List.nodup_range' _ _
  · rw [h2]
    intro h0
    have h3 := (List.mem_range'_1.mp h0).1
    simp at h3
  · rw [List.getElem?_set_ne (by omega : a ≠ 0)]
    exact hs0

/-- Witness for C7: two decoded units allocate documents at addresses 1 and
2; overwriting address 1 leaves address 2 and the template at address 0
untouched. -/
theorem kinesis_fresh_copy_no_leakage_witness :
    ((runUnitsHeap "ts" "acct" ⟨"arn", "seq", []⟩ "t" "n" "r"
        [⟨[104], 0, 1, none⟩, ⟨[105], 1, 2, none⟩] [_default_event]).1)[0]?
      = some _default_event ∧
    ((runUnitsHeap "ts" "acct" ⟨"arn", "seq", []⟩ "t" "n" "r"
        [⟨[104], 0, 1, none⟩, ⟨[105], 1, 2, none⟩] [_default_event]).2.1).Nodup ∧
    0 ∉ (runUnitsHeap "ts" "acct" ⟨"arn", "seq", []⟩ "t" "n" "r"
        [⟨[104], 0, 1, none⟩, ⟨[105], 1, 2, none⟩] [_default_event]).2.1 ∧
    (((runUnitsHeap "ts" "acct" ⟨"arn", "seq", []⟩ "t" "n" "r"
        [⟨[104], 0, 1, none⟩, ⟨[105], 1, 2, none⟩] [_default_event]).1).set 1
          (Json.obj []))[2]?
      = ((runUnitsHeap "ts" "acct" ⟨"arn", "seq", []⟩ "t" "n" "r"
          [⟨[104], 0, 1, none⟩, ⟨[105], 1, 2, none⟩] [_default_event]).1)[2]? ∧
    (((runUnitsHeap "ts" "acct" ⟨"arn", "seq", []⟩ "t" "n" "r"
        [⟨[104], 0, 1, none⟩, ⟨[105], 1, 2, none⟩] [_default_event]).1).set 1
          (Json.obj []))[0]?
      = some _default_event :=
  kinesis_fresh_copy_no_leakage "ts" "acct" ⟨"arn", "seq", []⟩ "t" "n" "r"
    [⟨[104], 0, 1, none⟩, ⟨[105], 1, 2, none⟩] 1 2 (Json.obj [])
    (by decide) (by decide) (by decide)
